import Mathlib

/-!
Verification of the SQL schema static checker (`check_schema` in
`model_assist/app.py`).  The checker receives the list of statements the SQL
parser produced, collects per-table facts in a first pass and emits
diagnostics in a second pass.  We embed the statement data model the code
manipulates and the two passes, and prove the behavioural properties of the
checker over that embedding.
-/

namespace ModelAssist

/-- A constraint attached to a column or to a table, as the checker
distinguishes them (`exp.PrimaryKey`, `exp.ForeignKey` carrying the referenced
table name via its `Reference`, and anything else). -/
inductive Constraint where
  | primaryKey : Constraint
  | foreignKey (referencedTable : String) : Constraint
  | otherConstraint : Constraint
deriving DecidableEq, Repr

/-- A column definition: its name and its inline column constraints
(`col_def.constraints` in the source). -/
structure ColumnDef where
  name : String
  constraints : List Constraint
deriving DecidableEq, Repr

/-- A `CREATE TABLE` statement as the checker reads it: the table name
(`expr.this.this.name`), the column definitions (`expr.find_all(exp.ColumnDef)`)
and the table-level constraints (`expr.constraints`). -/
structure CreateTable where
  name : String
  columns : List ColumnDef
  constraints : List Constraint
deriving DecidableEq, Repr

/-- One parsed top-level statement.  The checker only inspects
`CREATE TABLE` statements (`isinstance(expr, exp.Create) and expr.kind ==
'TABLE'`); every other statement kind is skipped. -/
inductive Statement where
  | createTable (t : CreateTable) : Statement
  | other : Statement
deriving DecidableEq, Repr

/-- One entry of the returned report: the `type` tag, the optional `table`
key and the `message`, exactly the dictionary shape the source builds. -/
structure Diagnostic where
  type : String
  table : Option String
  message : String
deriving DecidableEq, Repr

/-- `isinstance(c, exp.PrimaryKey)`. -/
def Constraint.isPrimaryKey : Constraint → Bool
  | Constraint.primaryKey => true
  | _ => false

/-- Whether the statement is a `CREATE TABLE`. -/
def Statement.isCreateTable : Statement → Bool
  | Statement.createTable _ => true
  | Statement.other => false

/-- The `tables` dictionary of `check_schema`: each table name is mapped to
its single recorded fact, the `pk` flag. -/
abbrev TableFacts := List (String × Bool)

/-- Python dictionary assignment `tables[k] = v`: update the entry in place
when the key is present, append it otherwise. -/
def setFact : TableFacts → String → Bool → TableFacts
  | [], k, v => [(k, v)]
  | (k2, v2) :: rest, k, v =>
    if k2 = k then (k, v) :: rest else (k2, v2) :: setFact rest k v

/-- Python dictionary lookup `tables[k]`. -/
def getFact : TableFacts → String → Option Bool
  | [], _ => none
  | (k2, v) :: rest, k => if k2 = k then some v else getFact rest k

/-- Python membership test `k in tables`. -/
def hasKey (m : TableFacts) (k : String) : Bool :=
  (getFact m k).isSome

/-- Python `str.islower()` on ASCII text: the string has at least one cased
(alphabetic) character and every cased character is lowercase, that is, no
character is uppercase. -/
def pyIslower (s : String) : Bool :=
  s.data.any (fun c => c.isAlpha) && s.data.all (fun c => !c.isUpper)

/-- The naming-convention warning of the first pass. -/
def namingWarning (name : String) : Diagnostic :=
  { type := "warning", table := some name,
    message := "Naming Convention: Table '" ++ name ++ "' is not in lowercase." }

/-- The missing-primary-key error of the second pass. -/
def missingPKError (name : String) : Diagnostic :=
  { type := "error", table := some name,
    message := "Missing Primary Key: Table '" ++ name ++ "' does not have a PRIMARY KEY defined." }

/-- The invalid-foreign-key error of the second pass. -/
def invalidFKError (name ref : String) : Diagnostic :=
  { type := "error", table := some name,
    message := "Invalid Foreign Key: Table '" ++ name ++ "' has a FOREIGN KEY that references a non-existent table '" ++ ref ++ "'." }

/-- The error returned when the parsed statement list is empty. -/
def emptySchemaError : Diagnostic :=
  { type := "error", table := none,
    message := "SQL schema is empty or could not be parsed." }

/-- The success diagnostic appended when the report is empty after both
passes. -/
def successDiag : Diagnostic :=
  { type := "success", table := none, message := "All static checks passed!" }

/-- The fact updates one `CREATE TABLE` performs on the `tables` dictionary
during the first pass: register the name with `pk = False`, then set `pk` to
`True` when some table-level constraint is a `PrimaryKey`, then set it to
`True` when some column carries an inline `PrimaryKey` constraint. -/
def collectTablesStep (m : TableFacts) (t : CreateTable) : TableFacts :=
  let m1 := setFact m t.name false
  let m2 := if t.constraints.any Constraint.isPrimaryKey then setFact m1 t.name true else m1
  if t.columns.any (fun col => col.constraints.any Constraint.isPrimaryKey)
  then setFact m2 t.name true else m2

/-- First pass of `check_schema` over the statements: thread the `tables`
dictionary through every `CREATE TABLE` and append one naming-convention
warning for each table whose name is not lowercase. -/
def collectPass : TableFacts → List Statement → TableFacts × List Diagnostic
  | m, [] => (m, [])
  | m, Statement.other :: rest => collectPass m rest
  | m, Statement.createTable t :: rest =>
    ((collectPass (collectTablesStep m t) rest).1,
     (if pyIslower t.name then [] else [namingWarning t.name])
       ++ (collectPass (collectTablesStep m t) rest).2)

/-- The foreign-key loop of the second pass: for each table-level constraint
that is a `ForeignKey`, emit the invalid-foreign-key error when the
referenced table is not a key of the `tables` dictionary. -/
def fkErrors (tables : TableFacts) (name : String) : List Constraint → List Diagnostic
  | [] => []
  | Constraint.foreignKey ref :: rest =>
    (if hasKey tables ref then [] else [invalidFKError name ref])
      ++ fkErrors tables name rest
  | _ :: rest => fkErrors tables name rest

/-- Second pass of `check_schema`: for each `CREATE TABLE` in source order,
emit the missing-primary-key error when its recorded `pk` fact is false, then
run the foreign-key loop over its table-level constraints. -/
def checkPass (tables : TableFacts) : List Statement → List Diagnostic
  | [] => []
  | Statement.other :: rest => checkPass tables rest
  | Statement.createTable t :: rest =>
    (if (getFact tables t.name).getD false then [] else [missingPKError t.name])
      ++ fkErrors tables t.name t.constraints
      ++ checkPass tables rest

/-- `check_schema` on an already parsed statement list: the empty list yields
the empty-schema error, otherwise the two passes run and, when they produced
no diagnostic, the single success diagnostic is returned. -/
def check_schema (parsed : List Statement) : List Diagnostic :=
  if parsed = [] then [emptySchemaError]
  else
    let collected := collectPass [] parsed
    let report := collected.2 ++ checkPass collected.1 parsed
    if report = [] then [successDiag] else report

/-- The primary-key fact the first pass records for one `CREATE TABLE`: some
table-level constraint is a `PrimaryKey`, or some column carries an inline
`PrimaryKey` constraint. -/
def tableHasPK (t : CreateTable) : Bool :=
  t.constraints.any Constraint.isPrimaryKey
    || t.columns.any (fun col => col.constraints.any Constraint.isPrimaryKey)

/-- The naming-convention diagnostic one statement contributes to the first
pass, stated per statement for the ordering characterization. -/
def specNamingWarning : Statement → Option Diagnostic
  | Statement.createTable t =>
    if pyIslower t.name then none else some (namingWarning t.name)
  | Statement.other => none

/-- The diagnostics one statement contributes to the second pass, stated per
statement for the ordering characterization: the missing-primary-key error
first, then the foreign-key errors of the table-level constraints in order. -/
def specTableErrors (tables : TableFacts) : Statement → List Diagnostic
  | Statement.createTable t =>
    (if (getFact tables t.name).getD false then [] else [missingPKError t.name])
      ++ t.constraints.filterMap (fun c =>
          match c with
          | Constraint.foreignKey ref =>
            if hasKey tables ref then none else some (invalidFKError t.name ref)
          | _ => none)
  | Statement.other => []

/-- The last `CREATE TABLE` of the list that declares the given name, the
declaration whose facts survive the overwriting dictionary registration. -/
def lastDecl : List Statement → String → Option CreateTable
  | [], _ => none
  | Statement.createTable t :: rest, n =>
    match lastDecl rest n with
    | some t2 => some t2
    | none => if t.name = n then some t else none
  | Statement.other :: rest, n => lastDecl rest n

/-- The declared table names of the batch, in source order, one entry per
`CREATE TABLE` statement. -/
def tableNames : List Statement → List String
  | [] => []
  | Statement.createTable t :: rest => t.name :: tableNames rest
  | Statement.other :: rest => tableNames rest

/-- Modelled from the spec: the DDL parser itself is the third-party sqlglot
library, whose code is not part of this repository, so only its contract is
modelled. Per the spec, `parse` fails with a `ParseError` when the text is
empty or whitespace-only; on other inputs its behaviour is given by an
`oracle` argument standing for the rest of the parser. -/
def parseResult (oracle : String → Except String (List Statement))
    (sql : String) : Except String (List Statement) :=
  if sql.data.all Char.isWhitespace
  then Except.error "empty or whitespace-only input"
  else oracle sql

/-- `check_schema` from the raw SQL text: a parse failure is caught and
surfaced as a single error diagnostic wrapping the parse failure message
(the `except` branch of the source); a successful parse feeds the statement
list to the two passes. -/
def check_schema_from_text (oracle : String → Except String (List Statement))
    (sql : String) : List Diagnostic :=
  match parseResult oracle sql with
  | Except.error msg =>
    [{ type := "error", table := none, message := "Schema Parsing Error: " ++ msg }]
  | Except.ok parsed => check_schema parsed

/-! Concrete batches used to instantiate the theorems below. -/

/-- A table whose name has no cased character at all. -/
def digitsTable : CreateTable := ⟨"123", [⟨"id", [Constraint.primaryKey]⟩], []⟩

/-- A table whose only foreign key is an inline column constraint referencing
an undeclared table. -/
def inlineFKTable : CreateTable :=
  ⟨"a", [⟨"id", [Constraint.primaryKey]⟩, ⟨"cid", [Constraint.foreignKey "missing"]⟩], []⟩

/-- A forward-referencing batch: `orders` references `users`, declared later. -/
def usersTable : CreateTable := ⟨"users", [⟨"id", [Constraint.primaryKey]⟩], []⟩

/-- The referencing table of the forward-reference batch. -/
def ordersTable : CreateTable :=
  ⟨"orders", [⟨"id", [Constraint.primaryKey]⟩], [Constraint.foreignKey "users"]⟩

/-- `orders` first, `users` later: the foreign key is a forward reference. -/
def forwardBatch : List Statement :=
  [Statement.createTable ordersTable, Statement.createTable usersTable]

/-- First declaration of the duplicated name `t`: it has a primary key. -/
def dupFirst : CreateTable := ⟨"t", [⟨"id", [Constraint.primaryKey]⟩], []⟩

/-- Second declaration of the duplicated name `t`: no primary key. -/
def dupSecond : CreateTable := ⟨"t", [⟨"x", []⟩], []⟩

/-- A single table without any primary key. -/
def plainTable : CreateTable := ⟨"plain", [⟨"id", []⟩], []⟩

/-- A table with an uppercase name, used for the ordering witness. -/
def upperTable : CreateTable := ⟨"Users", [⟨"id", [Constraint.primaryKey]⟩], []⟩

/-- A batch producing both a warning and both kinds of error. -/
def mixedBatch : List Statement :=
  [Statement.createTable upperTable,
   Statement.createTable ⟨"orders", [⟨"id", []⟩], [Constraint.foreignKey "customers"]⟩]

/-- A table whose table-level foreign key references the table itself. -/
def selfRefTable : CreateTable :=
  ⟨"emp", [⟨"id", [Constraint.primaryKey]⟩], [Constraint.foreignKey "emp"]⟩

end ModelAssist

namespace ModelAssist

theorem getFact_setFact_self (m : TableFacts) (k : String) (v : Bool) :
    getFact (setFact m k v) k = some v := by
  induction m with
  | nil => simp [setFact, getFact]
  | cons p rest ih =>
    obtain ⟨k2, v2⟩ := p
    by_cases h : k2 = k
    · simp [setFact, getFact, h]
    · simp [setFact, getFact, h, ih]

theorem getFact_setFact_ne (m : TableFacts) {k n : String} (v : Bool) (h : k ≠ n) :
    getFact (setFact m k v) n = getFact m n := by
  induction m with
  | nil => simp [setFact, getFact, h]
  | cons p rest ih =>
    obtain ⟨k2, v2⟩ := p
    by_cases h2 : k2 = k
    · subst h2
      simp [setFact, getFact, h]
    · simp [setFact, getFact, h2, ih]

theorem setFact_setFact (m : TableFacts) (k : String) (v w : Bool) :
    setFact (setFact m k v) k w = setFact m k w := by
  induction m with
  | nil => simp [setFact]
  | cons p rest ih =>
    obtain ⟨k2, v2⟩ := p
    by_cases h : k2 = k
    · simp [setFact, h]
    · simp [setFact, h, ih]

theorem collectTablesStep_eq (m : TableFacts) (t : CreateTable) :
    collectTablesStep m t = setFact m t.name (tableHasPK t) := by
  unfold collectTablesStep tableHasPK
  cases hc : t.constraints.any Constraint.isPrimaryKey <;>
    cases hcol : t.columns.any (fun col => col.constraints.any Constraint.isPrimaryKey) <;>
      simp [hc, hcol, setFact_setFact]

theorem collectPass_snd (stmts : List Statement) :
    ∀ m : TableFacts, (collectPass m stmts).2 = stmts.filterMap specNamingWarning := by
  induction stmts with
  | nil => intro m; simp [collectPass]
  | cons s rest ih =>
    intro m
    cases s with
    | other => simp [collectPass, specNamingWarning, ih]
    | createTable t =>
      by_cases h : pyIslower t.name <;>
        simp [collectPass, specNamingWarning, h, ih]

theorem collectPass_fst_getFact (stmts : List Statement) :
    ∀ (m : TableFacts) (n : String),
      getFact (collectPass m stmts).1 n =
        (match lastDecl stmts n with
         | some t => some (tableHasPK t)
         | none => getFact m n) := by
  induction stmts with
  | nil => intro m n; simp [collectPass, lastDecl]
  | cons s rest ih =>
    intro m n
    cases s with
    | other => simpa [collectPass, lastDecl] using ih m n
    | createTable t =>
      have h1 : (collectPass m (Statement.createTable t :: rest)).1
          = (collectPass (collectTablesStep m t) rest).1 := rfl
      rw [h1, ih]
      cases hl : lastDecl rest n with
      | some t2 => simp [lastDecl, hl]
      | none =>
        simp only [lastDecl, hl]
        by_cases hn : t.name = n
        · subst hn
          simp [collectTablesStep_eq, getFact_setFact_self]
        · simp [hn, collectTablesStep_eq, getFact_setFact_ne _ _ hn]

theorem lastDecl_eq_none_iff (stmts : List Statement) (n : String) :
    lastDecl stmts n = none ↔ n ∉ tableNames stmts := by
  induction stmts with
  | nil => simp [lastDecl, tableNames]
  | cons s rest ih =>
    cases s with
    | other => simpa [lastDecl, tableNames] using ih
    | createTable t =>
      simp only [lastDecl, tableNames, List.mem_cons]
      cases hl : lastDecl rest n with
      | some t2 =>
        have hn : n ∈ tableNames rest := by
          by_contra hc
          have h2 := ih.mpr hc
          rw [hl] at h2
          cases h2
        simp [hn]
      | none =>
        have hn : n ∉ tableNames rest := ih.mp hl
        by_cases ht : t.name = n
        · simp [ht]
        · have ht2 : ¬(n = t.name) := fun h2 => ht h2.symm
          simp [ht, ht2, hn]

theorem mem_tableNames_iff (stmts : List Statement) (n : String) :
    n ∈ tableNames stmts ↔ ∃ t, Statement.createTable t ∈ stmts ∧ t.name = n := by
  induction stmts with
  | nil => simp [tableNames]
  | cons s rest ih =>
    cases s with
    | other =>
      simp only [tableNames, List.mem_cons, ih]
      constructor
      · rintro ⟨t, ht, hn⟩
        exact ⟨t, Or.inr ht, hn⟩
      · rintro ⟨t, ht, hn⟩
        cases ht with
        | inl h2 => cases h2
        | inr h2 => exact ⟨t, h2, hn⟩
    | createTable t0 =>
      simp only [tableNames, List.mem_cons, ih, Statement.createTable.injEq]
      constructor
      · rintro (h2 | ⟨t, ht, hn⟩)
        · exact ⟨t0, Or.inl rfl, h2.symm⟩
        · exact ⟨t, Or.inr ht, hn⟩
      · rintro ⟨t, ht, hn⟩
        cases ht with
        | inl h2 =>
          subst h2
          exact Or.inl hn.symm
        | inr h2 => exact Or.inr ⟨t, h2, hn⟩

theorem lastDecl_isSome_iff (stmts : List Statement) (n : String) :
    (lastDecl stmts n).isSome = true ↔ n ∈ tableNames stmts := by
  cases hl : lastDecl stmts n with
  | none =>
    simp [(lastDecl_eq_none_iff stmts n).mp hl]
  | some t =>
    have hn : n ∈ tableNames stmts := by
      by_contra hc
      rw [← lastDecl_eq_none_iff] at hc
      rw [hl] at hc
      cases hc
    simp [hn]

theorem hasKey_collect (stmts : List Statement) (n : String) :
    hasKey (collectPass [] stmts).1 n = true ↔ n ∈ tableNames stmts := by
  unfold hasKey
  rw [collectPass_fst_getFact]
  cases hl : lastDecl stmts n with
  | none =>
    simp [getFact, (lastDecl_eq_none_iff stmts n).mp hl]
  | some t =>
    have hn : n ∈ tableNames stmts := by
      have h2 := lastDecl_isSome_iff stmts n
      rw [hl] at h2
      simpa using h2
    simp [hn]

theorem fkErrors_eq (tables : TableFacts) (nm : String) (cs : List Constraint) :
    fkErrors tables nm cs = cs.filterMap (fun c =>
      match c with
      | Constraint.foreignKey ref =>
        if hasKey tables ref then none else some (invalidFKError nm ref)
      | _ => none) := by
  induction cs with
  | nil => simp [fkErrors]
  | cons c rest ih =>
    cases c with
    | primaryKey => simpa [fkErrors] using ih
    | otherConstraint => simpa [fkErrors] using ih
    | foreignKey ref =>
      by_cases h : hasKey tables ref <;> simp [fkErrors, h, ih]

theorem checkPass_eq (tables : TableFacts) (stmts : List Statement) :
    checkPass tables stmts = (stmts.map (specTableErrors tables)).flatten := by
  induction stmts with
  | nil => simp [checkPass]
  | cons s rest ih =>
    cases s with
    | other => simp [checkPass, specTableErrors, ih]
    | createTable t =>
      simp [checkPass, specTableErrors, ih, fkErrors_eq, List.append_assoc]


theorem string_data_inj {s t : String} (h : s.data = t.data) : s = t := by
  cases s
  cases t
  exact congrArg String.mk (by simpa using h)

theorem namingWarning_inj {a b : String} (h : namingWarning a = namingWarning b) :
    a = b := by
  have h2 := congrArg Diagnostic.table h
  simpa [namingWarning] using h2

theorem missingPKError_inj {a b : String} (h : missingPKError a = missingPKError b) :
    a = b := by
  have h2 := congrArg Diagnostic.table h
  simpa [missingPKError] using h2

theorem invalidFKError_inj {a b c d : String}
    (h : invalidFKError a b = invalidFKError c d) : a = c ∧ b = d := by
  have h2 := congrArg Diagnostic.table h
  have hac : a = c := by simpa [invalidFKError] using h2
  subst hac
  refine ⟨rfl, ?_⟩
  have hm := congrArg Diagnostic.message h
  simp only [invalidFKError] at hm
  have hd := congrArg String.data hm
  simp only [String.data_append, List.append_assoc] at hd
  have h3 := List.append_cancel_left hd
  have h4 := List.append_cancel_left h3
  have h5 := List.append_cancel_left h4
  have h6 := List.append_cancel_right h5
  exact string_data_inj h6

theorem missingPK_ne_invalidFK (a b c : String) :
    missingPKError a ≠ invalidFKError b c := by
  intro h
  have hm := congrArg Diagnostic.message h
  simp only [missingPKError, invalidFKError] at hm
  have hd := congrArg String.data hm
  simp only [String.data_append, List.append_assoc] at hd
  simp only [List.cons_append] at hd
  injection hd with hh _
  exact absurd hh (by decide)

theorem namingWarning_ne_missingPK (a b : String) :
    namingWarning a ≠ missingPKError b := by
  intro h
  have h2 := congrArg Diagnostic.type h
  simp only [namingWarning, missingPKError] at h2
  exact absurd h2 (by decide)

theorem namingWarning_ne_invalidFK (a b c : String) :
    namingWarning a ≠ invalidFKError b c := by
  intro h
  have h2 := congrArg Diagnostic.type h
  simp only [namingWarning, invalidFKError] at h2
  exact absurd h2 (by decide)

theorem successDiag_ne_namingWarning (a : String) : successDiag ≠ namingWarning a := by
  intro h
  have h2 := congrArg Diagnostic.type h
  simp only [successDiag, namingWarning] at h2
  exact absurd h2 (by decide)

theorem successDiag_ne_missingPK (a : String) : successDiag ≠ missingPKError a := by
  intro h
  have h2 := congrArg Diagnostic.type h
  simp only [successDiag, missingPKError] at h2
  exact absurd h2 (by decide)

theorem successDiag_ne_invalidFK (a b : String) : successDiag ≠ invalidFKError a b := by
  intro h
  have h2 := congrArg Diagnostic.type h
  simp only [successDiag, invalidFKError] at h2
  exact absurd h2 (by decide)


theorem mem_fkErrors {d : Diagnostic} {tables : TableFacts} {nm : String}
    {cs : List Constraint} (h : d ∈ fkErrors tables nm cs) :
    ∃ ref, d = invalidFKError nm ref ∧ Constraint.foreignKey ref ∈ cs
      ∧ hasKey tables ref = false := by
  induction cs with
  | nil => simp [fkErrors] at h
  | cons c rest ih =>
    cases c with
    | primaryKey =>
      obtain ⟨ref, h1, h2, h3⟩ := ih (by simpa [fkErrors] using h)
      exact ⟨ref, h1, List.mem_cons_of_mem _ h2, h3⟩
    | otherConstraint =>
      obtain ⟨ref, h1, h2, h3⟩ := ih (by simpa [fkErrors] using h)
      exact ⟨ref, h1, List.mem_cons_of_mem _ h2, h3⟩
    | foreignKey ref0 =>
      by_cases hk : hasKey tables ref0
      · obtain ⟨ref, h1, h2, h3⟩ := ih (by simpa [fkErrors, hk] using h)
        exact ⟨ref, h1, List.mem_cons_of_mem _ h2, h3⟩
      · rw [fkErrors, if_neg hk] at h
        rcases List.mem_append.mp h with h2 | h2
        · rcases List.mem_singleton.mp h2 with rfl
          exact ⟨ref0, rfl, List.mem_cons_self _ _, by simpa using hk⟩
        · obtain ⟨ref, h1, h3, h4⟩ := ih h2
          exact ⟨ref, h1, List.mem_cons_of_mem _ h3, h4⟩

theorem mem_fkErrors_of {tables : TableFacts} {nm ref : String} {cs : List Constraint}
    (hc : Constraint.foreignKey ref ∈ cs) (hk : hasKey tables ref = false) :
    invalidFKError nm ref ∈ fkErrors tables nm cs := by
  induction cs with
  | nil => cases hc
  | cons c rest ih =>
    rcases List.mem_cons.mp hc with h2 | h2
    · subst h2
      rw [fkErrors, if_neg (by simp [hk])]
      exact List.mem_append.mpr (Or.inl (List.mem_singleton.mpr rfl))
    · cases c with
      | primaryKey => simpa [fkErrors] using ih h2
      | otherConstraint => simpa [fkErrors] using ih h2
      | foreignKey ref0 =>
        rw [fkErrors]
        exact List.mem_append.mpr (Or.inr (ih h2))

theorem mem_checkPass {d : Diagnostic} {tables : TableFacts} {stmts : List Statement}
    (h : d ∈ checkPass tables stmts) :
    (∃ t, Statement.createTable t ∈ stmts ∧ d = missingPKError t.name
        ∧ (getFact tables t.name).getD false = false)
    ∨ (∃ t ref, Statement.createTable t ∈ stmts ∧ d = invalidFKError t.name ref
        ∧ Constraint.foreignKey ref ∈ t.constraints ∧ hasKey tables ref = false) := by
  induction stmts with
  | nil => simp [checkPass] at h
  | cons s rest ih =>
    cases s with
    | other =>
      rcases ih (by simpa [checkPass] using h) with ⟨t, h1, h2, h3⟩ | ⟨t, ref, h1, h2, h3, h4⟩
      · exact Or.inl ⟨t, List.mem_cons_of_mem _ h1, h2, h3⟩
      · exact Or.inr ⟨t, ref, List.mem_cons_of_mem _ h1, h2, h3, h4⟩
    | createTable t0 =>
      rw [checkPass] at h
      rcases List.mem_append.mp h with h2 | h2
      · rcases List.mem_append.mp h2 with h3 | h3
        · by_cases hf : (getFact tables t0.name).getD false
          · rw [if_pos hf] at h3
            cases h3
          · rw [if_neg hf] at h3
            rcases List.mem_singleton.mp h3 with rfl
            exact Or.inl ⟨t0, List.mem_cons_self _ _, rfl, by simpa using hf⟩
        · obtain ⟨ref, h4, h5, h6⟩ := mem_fkErrors h3
          exact Or.inr ⟨t0, ref, List.mem_cons_self _ _, h4, h5, h6⟩
      · rcases ih h2 with ⟨t, h1, h3, h4⟩ | ⟨t, ref, h1, h3, h4, h5⟩
        · exact Or.inl ⟨t, List.mem_cons_of_mem _ h1, h3, h4⟩
        · exact Or.inr ⟨t, ref, List.mem_cons_of_mem _ h1, h3, h4, h5⟩

theorem invalidFK_mem_checkPass {tables : TableFacts} {stmts : List Statement}
    {t : CreateTable} {ref : String} (ht : Statement.createTable t ∈ stmts)
    (hc : Constraint.foreignKey ref ∈ t.constraints) (hk : hasKey tables ref = false) :
    invalidFKError t.name ref ∈ checkPass tables stmts := by
  induction stmts with
  | nil => cases ht
  | cons s rest ih =>
    rcases List.mem_cons.mp ht with h2 | h2
    · subst h2
      rw [checkPass]
      exact List.mem_append.mpr (Or.inl (List.mem_append.mpr (Or.inr (mem_fkErrors_of hc hk))))
    · cases s with
      | other => simpa [checkPass] using ih h2
      | createTable t0 =>
        rw [checkPass]
        exact List.mem_append.mpr (Or.inr (ih h2))

theorem missingPK_mem_checkPass {tables : TableFacts} {stmts : List Statement}
    {t : CreateTable} (ht : Statement.createTable t ∈ stmts)
    (hf : (getFact tables t.name).getD false = false) :
    missingPKError t.name ∈ checkPass tables stmts := by
  induction stmts with
  | nil => cases ht
  | cons s rest ih =>
    rcases List.mem_cons.mp ht with h2 | h2
    · subst h2
      rw [checkPass, if_neg (by simp [hf])]
      exact List.mem_append.mpr (Or.inl (List.mem_append.mpr (Or.inl (List.mem_singleton.mpr rfl))))
    · cases s with
      | other => simpa [checkPass] using ih h2
      | createTable t0 =>
        rw [checkPass]
        exact List.mem_append.mpr (Or.inr (ih h2))

theorem mem_collect_snd {d : Diagnostic} {m : TableFacts} {stmts : List Statement}
    (h : d ∈ (collectPass m stmts).2) :
    ∃ nm, d = namingWarning nm ∧ pyIslower nm = false := by
  rw [collectPass_snd] at h
  obtain ⟨s, hs, h2⟩ := List.mem_filterMap.mp h
  cases s with
  | other => simp [specNamingWarning] at h2
  | createTable t =>
    by_cases hl : pyIslower t.name
    · simp [specNamingWarning, hl] at h2
    · rw [specNamingWarning, if_neg hl] at h2
      exact ⟨t.name, (Option.some_inj.mp h2).symm, by simpa using hl⟩


theorem checkPass_type {d : Diagnostic} {tables : TableFacts} {stmts : List Statement}
    (h : d ∈ checkPass tables stmts) : d.type = "error" := by
  rcases mem_checkPass h with ⟨t, _, h2, _⟩ | ⟨t, ref, _, h2, _, _⟩
  · rw [h2]
    rfl
  · rw [h2]
    rfl

theorem collect_snd_type {d : Diagnostic} {m : TableFacts} {stmts : List Statement}
    (h : d ∈ (collectPass m stmts).2) : d.type = "warning" := by
  obtain ⟨nm, h1, _⟩ := mem_collect_snd h
  rw [h1]
  rfl

theorem invalidFK_not_mem_checkPass {tables : TableFacts} {stmts : List Statement}
    {nm ref : String} (h : hasKey tables ref = true) :
    invalidFKError nm ref ∉ checkPass tables stmts := by
  intro hmem
  rcases mem_checkPass hmem with ⟨t, _, h2, _⟩ | ⟨t, ref2, _, h2, _, h4⟩
  · exact missingPK_ne_invalidFK t.name nm ref h2.symm
  · obtain ⟨_, hr⟩ := invalidFKError_inj h2
    rw [hr] at h
    rw [h] at h4
    cases h4

theorem lastDecl_of_nodup {stmts : List Statement} {t : CreateTable}
    (hnd : (tableNames stmts).Nodup) (ht : Statement.createTable t ∈ stmts) :
    lastDecl stmts t.name = some t := by
  induction stmts with
  | nil => cases ht
  | cons s rest ih =>
    cases s with
    | other =>
      have ht2 : Statement.createTable t ∈ rest := by
        rcases List.mem_cons.mp ht with h2 | h2
        · cases h2
        · exact h2
      have hnd2 : (tableNames rest).Nodup := by simpa [tableNames] using hnd
      simpa [lastDecl] using ih hnd2 ht2
    | createTable t0 =>
      have hpair := List.nodup_cons.mp (by simpa [tableNames] using hnd)
      rcases List.mem_cons.mp ht with h2 | h2
      · injection h2 with h3
        subst h3
        have hnone : lastDecl rest t.name = none :=
          (lastDecl_eq_none_iff rest t.name).mpr hpair.1
        simp [lastDecl, hnone]
      · have hsome : lastDecl rest t.name = some t := ih hpair.2 h2
        simp [lastDecl, hsome]

theorem check_schema_cases (parsed : List Statement) (h : parsed ≠ []) :
    check_schema parsed =
      (if (collectPass [] parsed).2 ++ checkPass (collectPass [] parsed).1 parsed = []
       then [successDiag]
       else (collectPass [] parsed).2 ++ checkPass (collectPass [] parsed).1 parsed) := by
  simp only [check_schema, if_neg h]


theorem count_naming_filterMap (stmts : List Statement) (nm : String) :
    (stmts.filterMap specNamingWarning).count (namingWarning nm)
      = if pyIslower nm then 0 else (tableNames stmts).count nm := by
  induction stmts with
  | nil => simp [tableNames]
  | cons s rest ih =>
    cases s with
    | other => simpa [tableNames, specNamingWarning] using ih
    | createTable t =>
      by_cases hl : pyIslower t.name
      · have hf : specNamingWarning (Statement.createTable t) = none := by
          simp [specNamingWarning, hl]
        rw [List.filterMap_cons, hf, ih]
        by_cases hn : pyIslower nm
        · simp [hn]
        · have hne : t.name ≠ nm := fun h2 => hn (h2 ▸ hl)
          simp [hn, tableNames, List.count_cons, hne]
      · have hf : specNamingWarning (Statement.createTable t)
            = some (namingWarning t.name) := by
          simp [specNamingWarning, hl]
        rw [List.filterMap_cons, hf]
        have hiff : (namingWarning t.name = namingWarning nm) ↔ (t.name = nm) :=
          ⟨namingWarning_inj, fun h2 => by rw [h2]⟩
        by_cases hn : pyIslower nm
        · have hne : ¬(t.name = nm) := fun h2 => hl (by rw [h2]; exact hn)
          simp [List.count_cons, ih, hn, hiff, hne]
        · simp [List.count_cons, ih, hn, tableNames, hiff]

theorem count_missingPK_fkErrors (tables : TableFacts) (nm n2 : String)
    (cs : List Constraint) : (fkErrors tables nm cs).count (missingPKError n2) = 0 := by
  refine List.count_eq_zero.mpr ?_
  intro h
  obtain ⟨ref, h1, _, _⟩ := mem_fkErrors h
  exact missingPK_ne_invalidFK n2 nm ref h1

theorem count_missingPK_collect_snd (m : TableFacts) (stmts : List Statement)
    (n : String) : ((collectPass m stmts).2).count (missingPKError n) = 0 := by
  refine List.count_eq_zero.mpr ?_
  intro h
  obtain ⟨nm, h1, _⟩ := mem_collect_snd h
  exact namingWarning_ne_missingPK nm n h1.symm

theorem count_naming_checkPass (tables : TableFacts) (stmts : List Statement)
    (nm : String) : (checkPass tables stmts).count (namingWarning nm) = 0 := by
  refine List.count_eq_zero.mpr ?_
  intro h
  rcases mem_checkPass h with ⟨t, _, h2, _⟩ | ⟨t, ref, _, h2, _, _⟩
  · exact namingWarning_ne_missingPK nm t.name h2
  · exact namingWarning_ne_invalidFK nm t.name ref h2

theorem count_missingPK_checkPass_zero {tables : TableFacts} {stmts : List Statement}
    {n : String} (h : n ∉ tableNames stmts) :
    (checkPass tables stmts).count (missingPKError n) = 0 := by
  refine List.count_eq_zero.mpr ?_
  intro hmem
  rcases mem_checkPass hmem with ⟨t, h1, h2, _⟩ | ⟨t, ref, _, h2, _, _⟩
  · have h3 := missingPKError_inj h2
    exact h ((mem_tableNames_iff stmts n).mpr ⟨t, h1, h3.symm⟩)
  · exact missingPK_ne_invalidFK n t.name ref h2

theorem count_missingPK_checkPass (tables : TableFacts) {stmts : List Statement}
    {t : CreateTable} (hnd : (tableNames stmts).Nodup)
    (ht : Statement.createTable t ∈ stmts) :
    (checkPass tables stmts).count (missingPKError t.name)
      = if (getFact tables t.name).getD false then 0 else 1 := by
  induction stmts with
  | nil => cases ht
  | cons s rest ih =>
    cases s with
    | other =>
      have ht2 : Statement.createTable t ∈ rest := by
        rcases List.mem_cons.mp ht with h2 | h2
        · cases h2
        · exact h2
      have hnd2 : (tableNames rest).Nodup := by simpa [tableNames] using hnd
      simpa [checkPass] using ih hnd2 ht2
    | createTable t0 =>
      have hpair := List.nodup_cons.mp (by simpa [tableNames] using hnd)
      rw [checkPass, List.count_append, List.count_append, count_missingPK_fkErrors]
      rcases List.mem_cons.mp ht with h2 | h2
      · injection h2 with h3
        subst h3
        rw [count_missingPK_checkPass_zero hpair.1]
        by_cases hf : (getFact tables t.name).getD false
        · simp [hf]
        · simp [hf]
      · have hmem : t.name ∈ tableNames rest :=
          (mem_tableNames_iff rest t.name).mpr ⟨t, h2, rfl⟩
        have hne : t0.name ≠ t.name := fun h3 => hpair.1 (h3 ▸ hmem)
        have hblock : (if (getFact tables t0.name).getD false then ([] : List Diagnostic)
            else [missingPKError t0.name]).count (missingPKError t.name) = 0 := by
          by_cases hf : (getFact tables t0.name).getD false
          · simp [hf]
          · have hne2 : missingPKError t0.name ≠ missingPKError t.name :=
              fun h3 => hne (missingPKError_inj h3)
            simp [hf, List.count_singleton, hne2]
        rw [hblock, ih hpair.2 h2]
        simp


theorem collect_snd_nil_of_no_tables {m : TableFacts} {stmts : List Statement}
    (h : ∀ s ∈ stmts, Statement.isCreateTable s = false) :
    (collectPass m stmts).2 = [] := by
  rw [collectPass_snd]
  refine List.filterMap_eq_nil_iff.mpr ?_
  intro s hs
  cases s with
  | other => rfl
  | createTable t =>
    have h2 := h _ hs
    simp [Statement.isCreateTable] at h2

theorem checkPass_nil_of_no_tables {tables : TableFacts} {stmts : List Statement}
    (h : ∀ s ∈ stmts, Statement.isCreateTable s = false) :
    checkPass tables stmts = [] := by
  induction stmts with
  | nil => rfl
  | cons s rest ih =>
    cases s with
    | createTable t =>
      have h2 := h _ (List.mem_cons_self _ _)
      simp [Statement.isCreateTable] at h2
    | other =>
      rw [checkPass]
      exact ih fun s hs => h s (List.mem_cons_of_mem _ hs)

theorem namingWarning_ne_emptySchema (a : String) : namingWarning a ≠ emptySchemaError := by
  intro h
  have h2 := congrArg Diagnostic.type h
  simp only [namingWarning, emptySchemaError] at h2
  exact absurd h2 (by decide)

theorem invalidFK_ne_emptySchema (a b : String) : invalidFKError a b ≠ emptySchemaError := by
  intro h
  have h2 := congrArg Diagnostic.table h
  simp only [invalidFKError, emptySchemaError] at h2
  cases h2

theorem invalidFK_not_mem_check_schema {parsed : List Statement} {name ref : String}
    (hmemnames : ref ∈ tableNames parsed) :
    invalidFKError name ref ∉ check_schema parsed := by
  intro hmem
  have hp : parsed ≠ [] := by
    intro h2
    subst h2
    simp [tableNames] at hmemnames
  have hk : hasKey (collectPass [] parsed).1 ref = true :=
    (hasKey_collect parsed ref).mpr hmemnames
  rw [check_schema_cases parsed hp] at hmem
  by_cases hr : (collectPass [] parsed).2 ++ checkPass (collectPass [] parsed).1 parsed = []
  · rw [if_pos hr] at hmem
    have h2 := List.mem_singleton.mp hmem
    exact successDiag_ne_invalidFK name ref h2.symm
  · rw [if_neg hr] at hmem
    rcases List.mem_append.mp hmem with h2 | h2
    · obtain ⟨nm, h3, _⟩ := mem_collect_snd h2
      exact namingWarning_ne_invalidFK nm name ref h3.symm
    · exact invalidFK_not_mem_checkPass hk h2


/-! The claims. -/

/-- Claim C3: a ForeignKey constraint whose referenced table is declared by
some CREATE TABLE of the same batch — in particular one appearing later (a
forward reference) — produces no Invalid Foreign Key diagnostic, because the
table facts are fully collected over the whole batch before the check pass
runs. -/
theorem c3_forward_reference (parsed : List Statement) (name ref : String)
    (hdecl : ∃ td, Statement.createTable td ∈ parsed ∧ td.name = ref) :
    invalidFKError name ref ∉ check_schema parsed := by
  obtain ⟨td, htd, hn⟩ := hdecl
  exact invalidFK_not_mem_check_schema ((mem_tableNames_iff parsed ref).mpr ⟨td, htd, hn⟩)

/-- Claim C3, witness: in the forward-referencing batch (`orders` references
`users`, declared by the next statement) no Invalid Foreign Key error is
emitted. -/
theorem c3_witness : invalidFKError "orders" "users" ∉ check_schema forwardBatch :=
  c3_forward_reference forwardBatch "orders" "users" ⟨usersTable, by decide, rfl⟩

/-- Claim C10: a table-level ForeignKey constraint referencing the table it
belongs to (exact string match) never yields the Invalid Foreign Key error,
because every table is registered in the facts before the check pass runs. -/
theorem c10_self_reference (parsed : List Statement) (t : CreateTable)
    (ht : Statement.createTable t ∈ parsed)
    (_hfk : Constraint.foreignKey t.name ∈ t.constraints) :
    invalidFKError t.name t.name ∉ check_schema parsed :=
  invalidFK_not_mem_check_schema ((mem_tableNames_iff parsed t.name).mpr ⟨t, ht, rfl⟩)

/-- Claim C10, witness: the self-referencing table `emp` produces no Invalid
Foreign Key error. -/
theorem c10_witness :
    invalidFKError "emp" "emp" ∉ check_schema [Statement.createTable selfRefTable] :=
  c10_self_reference [Statement.createTable selfRefTable] selfRefTable
    (by decide) (by decide)

/-- Claim C4, counterexample: a successfully parsed nonempty batch with zero
CREATE TABLE statements does not yield the empty-schema error; it yields the
single success diagnostic. -/
theorem c4_counterexample :
    (∀ s ∈ [Statement.other], s.isCreateTable = false)
      ∧ check_schema [Statement.other] = [successDiag]
      ∧ check_schema [Statement.other] ≠ [emptySchemaError] :=
  ⟨by decide, by decide, by decide⟩

/-- Claim C4 (amended): the empty-schema error is returned exactly when the
parsed statement list is empty; a nonempty batch containing zero CREATE TABLE
statements runs both passes vacuously and returns the single success
diagnostic instead. -/
theorem c4_amended (parsed : List Statement) (h1 : parsed ≠ [])
    (h2 : ∀ s ∈ parsed, s.isCreateTable = false) :
    check_schema [] = [emptySchemaError] ∧ check_schema parsed = [successDiag] := by
  refine ⟨rfl, ?_⟩
  rw [check_schema_cases parsed h1, collect_snd_nil_of_no_tables h2,
    checkPass_nil_of_no_tables h2]
  rfl

/-- Claim C4, witness: instantiated at the one-statement batch holding a
non-CREATE-TABLE statement. -/
theorem c4_witness :
    check_schema [] = [emptySchemaError]
      ∧ check_schema [Statement.other] = [successDiag] :=
  c4_amended [Statement.other] (by decide) (by decide)

/-- Claim C7 (parser contract modelled from the spec): on empty or
whitespace-only input the parser fails, and the analyzer surfaces the failure
as a single error diagnostic — no success and no semantic diagnostic. -/
theorem c7_parse_failure (oracle : String → Except String (List Statement))
    (sql : String) (h : sql.data.all Char.isWhitespace = true) :
    check_schema_from_text oracle sql
        = [{ type := "error", table := none,
             message := "Schema Parsing Error: empty or whitespace-only input" }]
      ∧ successDiag ∉ check_schema_from_text oracle sql := by
  have he : parseResult oracle sql = Except.error "empty or whitespace-only input" := by
    rw [parseResult, if_pos h]
  have h1 : check_schema_from_text oracle sql
      = [{ type := "error", table := none,
           message := "Schema Parsing Error: empty or whitespace-only input" }] := by
    rw [check_schema_from_text, he]
    rfl
  refine ⟨h1, ?_⟩
  rw [h1]
  intro hmem
  have h2 := List.mem_singleton.mp hmem
  exact absurd (congrArg Diagnostic.type h2) (by decide)

/-- Claim C7, witness: the whitespace-only input, with an oracle standing for
the rest of the parser. -/
theorem c7_witness :
    check_schema_from_text (fun _ => Except.ok []) "   "
        = [{ type := "error", table := none,
             message := "Schema Parsing Error: empty or whitespace-only input" }]
      ∧ successDiag ∉ check_schema_from_text (fun _ => Except.ok []) "   " :=
  c7_parse_failure (fun _ => Except.ok []) "   " (by decide)

/-- Claim C9: when two CREATE TABLEs declare the same name, the fact recorded
after the first pass for any name is the primary-key fact of the LAST
declaration of that name (registration overwrites), and no duplicate-name
diagnostic exists: every diagnostic of the result is one of the five known
shapes. -/
theorem c9_duplicates (parsed : List Statement) (n : String) :
    getFact (collectPass [] parsed).1 n = Option.map tableHasPK (lastDecl parsed n)
      ∧ ∀ d ∈ check_schema parsed,
          d = successDiag ∨ d = emptySchemaError
            ∨ (∃ nm, d = namingWarning nm)
            ∨ (∃ nm, d = missingPKError nm)
            ∨ (∃ nm r, d = invalidFKError nm r) := by
  constructor
  · rw [collectPass_fst_getFact]
    cases lastDecl parsed n <;> simp [getFact]
  · intro d hd
    by_cases hp : parsed = []
    · subst hp
      have h2 : d = emptySchemaError := by simpa [check_schema] using hd
      exact Or.inr (Or.inl h2)
    · rw [check_schema_cases parsed hp] at hd
      by_cases hr : (collectPass [] parsed).2
          ++ checkPass (collectPass [] parsed).1 parsed = []
      · rw [if_pos hr] at hd
        exact Or.inl (List.mem_singleton.mp hd)
      · rw [if_neg hr] at hd
        rcases List.mem_append.mp hd with h2 | h2
        · obtain ⟨nm, h3, _⟩ := mem_collect_snd h2
          exact Or.inr (Or.inr (Or.inl ⟨nm, h3⟩))
        · rcases mem_checkPass h2 with ⟨t, _, h3, _⟩ | ⟨t, ref, _, h3, _, _⟩
          · exact Or.inr (Or.inr (Or.inr (Or.inl ⟨t.name, h3⟩)))
          · exact Or.inr (Or.inr (Or.inr (Or.inr ⟨t.name, ref, h3⟩)))

/-- Claim C9, witness: with `t` declared twice (first with a primary key,
then without), the recorded fact for `t` is the second declaration's. -/
theorem c9_witness :
    getFact (collectPass []
        [Statement.createTable dupFirst, Statement.createTable dupSecond]).1 "t"
      = Option.map tableHasPK (lastDecl
          [Statement.createTable dupFirst, Statement.createTable dupSecond] "t") :=
  (c9_duplicates [Statement.createTable dupFirst, Statement.createTable dupSecond] "t").1


/-- Claim C1, counterexample: the table name `123` contains no uppercase
character, yet the validator emits the naming-convention warning for it,
because Python islower is false on names with no cased character. -/
theorem c1_counterexample :
    "123".data.any Char.isUpper = false
      ∧ check_schema [Statement.createTable digitsTable] = [namingWarning "123"] :=
  ⟨by decide, by decide⟩

/-- Claim C1 (amended): one naming-convention warning is emitted per CREATE
TABLE statement whose declared name fails Python islower — that is, whose
name contains an uppercase character or no alphabetic character at all — and
none for a name that passes it (a lowercase letter present and no
uppercase). -/
theorem c1_naming (parsed : List Statement) (nm : String) :
    (check_schema parsed).count (namingWarning nm)
        = (if pyIslower nm then 0 else (tableNames parsed).count nm)
      ∧ (pyIslower nm = false
          ↔ ((∃ c ∈ nm.data, c.isUpper = true) ∨ ∀ c ∈ nm.data, c.isAlpha = false)) := by
  constructor
  · by_cases hp : parsed = []
    · subst hp
      have h2 : ¬(emptySchemaError = namingWarning nm) :=
        fun h4 => namingWarning_ne_emptySchema nm h4.symm
      simp [check_schema, tableNames, List.count_singleton, h2]
    · rw [check_schema_cases parsed hp]
      by_cases hr : (collectPass [] parsed).2
          ++ checkPass (collectPass [] parsed).1 parsed = []
      · rw [if_pos hr]
        have hw : (collectPass [] parsed).2 = [] := (List.append_eq_nil.mp hr).1
        have hc := count_naming_filterMap parsed nm
        rw [← collectPass_snd parsed [], hw] at hc
        rw [← hc]
        simp [List.count_singleton, List.count_nil, successDiag_ne_namingWarning nm]
      · rw [if_neg hr, List.count_append, count_naming_checkPass,
          collectPass_snd parsed [], count_naming_filterMap]
        simp
  · constructor
    · intro h
      by_cases ha : nm.data.any (fun c => c.isAlpha) = true
      · have hu : nm.data.all (fun c => !c.isUpper) = false := by
          cases h3 : nm.data.all (fun c => !c.isUpper)
          · rfl
          · rw [pyIslower, ha, h3] at h
            cases h
        rw [List.all_eq_false] at hu
        obtain ⟨c, hc1, hc2⟩ := hu
        exact Or.inl ⟨c, hc1, by simpa using hc2⟩
      · have ha2 : nm.data.any (fun c => c.isAlpha) = false := by
          cases h3 : nm.data.any (fun c => c.isAlpha)
          · rfl
          · exact absurd h3 ha
        rw [List.any_eq_false] at ha2
        exact Or.inr fun c hc => by simpa using ha2 c hc
    · intro h
      rcases h with ⟨c, hc1, hc2⟩ | hall
      · have hu : nm.data.all (fun c => !c.isUpper) = false := by
          rw [List.all_eq_false]
          exact ⟨c, hc1, by simp [hc2]⟩
        rw [pyIslower, hu]
        simp
      · have ha : nm.data.any (fun c => c.isAlpha) = false := by
          rw [List.any_eq_false]
          intro c2 hc2
          simp [hall c2 hc2]
        rw [pyIslower, ha]
        simp


/-- Claim C2, counterexample: table `a` carries an inline column ForeignKey
constraint referencing the undeclared table `missing`, yet the validator
emits no Invalid Foreign Key error at all — the result is the single success
diagnostic. Only table-level constraints are inspected by the check pass. -/
theorem c2_counterexample :
    (∃ col ∈ inlineFKTable.columns, Constraint.foreignKey "missing" ∈ col.constraints)
      ∧ hasKey (collectPass [] [Statement.createTable inlineFKTable]).1 "missing" = false
      ∧ check_schema [Statement.createTable inlineFKTable] = [successDiag] :=
  ⟨by decide, by decide, by decide⟩

/-- Claim C2 (amended): the Invalid Foreign Key error naming table `name` and
referenced table `ref` is emitted exactly when some CREATE TABLE named `name`
carries a TABLE-LEVEL ForeignKey constraint referencing `ref` and `ref` is
not a key of the collected table facts; inline column foreign-key
constraints are never checked. -/
theorem c2_invalid_fk (parsed : List Statement) (name ref : String) :
    invalidFKError name ref ∈ check_schema parsed
      ↔ ((∃ t, Statement.createTable t ∈ parsed ∧ t.name = name
            ∧ Constraint.foreignKey ref ∈ t.constraints)
          ∧ hasKey (collectPass [] parsed).1 ref = false) := by
  constructor
  · intro hmem
    by_cases hp : parsed = []
    · subst hp
      have h2 : invalidFKError name ref = emptySchemaError := by
        simpa [check_schema] using hmem
      exact absurd h2 (invalidFK_ne_emptySchema name ref)
    · rw [check_schema_cases parsed hp] at hmem
      by_cases hr : (collectPass [] parsed).2
          ++ checkPass (collectPass [] parsed).1 parsed = []
      · rw [if_pos hr] at hmem
        have h2 := List.mem_singleton.mp hmem
        exact absurd h2.symm (successDiag_ne_invalidFK name ref)
      · rw [if_neg hr] at hmem
        rcases List.mem_append.mp hmem with h2 | h2
        · obtain ⟨nm, h3, _⟩ := mem_collect_snd h2
          exact absurd h3.symm (namingWarning_ne_invalidFK nm name ref)
        · rcases mem_checkPass h2 with ⟨t, _, h3, _⟩ | ⟨t, ref2, h4, h3, h5, h6⟩
          · exact absurd h3.symm (missingPK_ne_invalidFK t.name name ref)
          · obtain ⟨hn, hrr⟩ := invalidFKError_inj h3
            subst hrr
            exact ⟨⟨t, h4, hn.symm, h5⟩, h6⟩
  · rintro ⟨⟨t, ht, hn, hc⟩, hk⟩
    have hp : parsed ≠ [] := by
      intro h2
      rw [h2] at ht
      cases ht
    have hmem : invalidFKError name ref
        ∈ checkPass (collectPass [] parsed).1 parsed := by
      rw [← hn]
      exact invalidFK_mem_checkPass ht hc hk
    rw [check_schema_cases parsed hp]
    have hr : (collectPass [] parsed).2
        ++ checkPass (collectPass [] parsed).1 parsed ≠ [] := by
      intro h2
      rw [(List.append_eq_nil.mp h2).2] at hmem
      cases hmem
    rw [if_neg hr]
    exact List.mem_append.mpr (Or.inr hmem)


/-- Claim C5: the success diagnostic is in the result iff no warning- or
error-typed diagnostic is, in which case the result is exactly the singleton
success list; for a nonempty batch, success appears iff the two passes
generated no diagnostic at all. -/
theorem c5_success (parsed : List Statement) :
    (successDiag ∈ check_schema parsed
        ↔ ∀ d ∈ check_schema parsed, d.type ≠ "warning" ∧ d.type ≠ "error")
      ∧ (successDiag ∈ check_schema parsed → check_schema parsed = [successDiag])
      ∧ (parsed ≠ [] →
          (successDiag ∈ check_schema parsed
            ↔ (collectPass [] parsed).2
                ++ checkPass (collectPass [] parsed).1 parsed = [])) := by
  by_cases hp : parsed = []
  · subst hp
    exact ⟨by decide, by decide, fun h => absurd rfl h⟩
  · rw [check_schema_cases parsed hp]
    by_cases hr : (collectPass [] parsed).2
        ++ checkPass (collectPass [] parsed).1 parsed = []
    · rw [if_pos hr]
      exact ⟨by decide, fun _ => rfl, fun _ => iff_of_true (by decide) hr⟩
    · rw [if_neg hr]
      have hnotmem : successDiag ∉ (collectPass [] parsed).2
          ++ checkPass (collectPass [] parsed).1 parsed := by
        intro hmem
        rcases List.mem_append.mp hmem with h2 | h2
        · exact absurd (collect_snd_type h2) (by decide)
        · exact absurd (checkPass_type h2) (by decide)
      obtain ⟨d0, hd0⟩ := List.exists_mem_of_ne_nil _ hr
      have hd0type : d0.type = "warning" ∨ d0.type = "error" := by
        rcases List.mem_append.mp hd0 with h2 | h2
        · exact Or.inl (collect_snd_type h2)
        · exact Or.inr (checkPass_type h2)
      refine ⟨iff_of_false hnotmem ?_, fun hmem => absurd hmem hnotmem,
        fun _ => iff_of_false hnotmem hr⟩
      intro hall
      obtain ⟨hw, he⟩ := hall d0 hd0
      rcases hd0type with h2 | h2
      · exact hw h2
      · exact he h2

/-- Claim C5, witness: on a valid one-table batch the result is exactly the
singleton success list. -/
theorem c5_witness : check_schema [Statement.createTable usersTable] = [successDiag] :=
  (c5_success [Statement.createTable usersTable]).2.1 (by decide)

/-- Claim C6: the result (when any diagnostic was generated) is all first-pass
naming warnings in table-declaration order, followed by all second-pass errors
in table-declaration order, where each table contributes its missing-primary-
key error first and then its foreign-key errors in constraint order. -/
theorem c6_ordering (parsed : List Statement) (h : parsed ≠ []) :
    check_schema parsed =
      (if parsed.filterMap specNamingWarning
            ++ (parsed.map (specTableErrors (collectPass [] parsed).1)).flatten = []
       then [successDiag]
       else parsed.filterMap specNamingWarning
            ++ (parsed.map (specTableErrors (collectPass [] parsed).1)).flatten) := by
  rw [check_schema_cases parsed h, collectPass_snd parsed [],
    checkPass_eq (collectPass [] parsed).1 parsed]

/-- Claim C6, witness: the mixed batch instantiates the ordering
characterization. -/
theorem c6_witness :
    check_schema mixedBatch =
      (if mixedBatch.filterMap specNamingWarning
            ++ (mixedBatch.map (specTableErrors (collectPass [] mixedBatch).1)).flatten = []
       then [successDiag]
       else mixedBatch.filterMap specNamingWarning
            ++ (mixedBatch.map (specTableErrors (collectPass [] mixedBatch).1)).flatten) :=
  c6_ordering mixedBatch (by decide)

/-- Claim C8, counterexample: `t` is declared twice, first with an inline
primary key; the overwriting registration makes the validator emit the
Missing Primary Key error twice for `t` — in particular once for a CREATE
TABLE that does have a primary key, and not exactly once. -/
theorem c8_counterexample :
    tableHasPK dupFirst = true
      ∧ check_schema [Statement.createTable dupFirst, Statement.createTable dupSecond]
          = [missingPKError "t", missingPKError "t"] :=
  ⟨by decide, by decide⟩

/-- Claim C8 (amended): when the declared table names of the batch are
pairwise distinct, the Missing Primary Key error for a declared table is
emitted exactly once iff the table has neither a table-level PrimaryKey
constraint nor a column with an inline PrimaryKey constraint, and not at all
otherwise. -/
theorem c8_missing_pk (parsed : List Statement) (t : CreateTable)
    (hnd : (tableNames parsed).Nodup) (ht : Statement.createTable t ∈ parsed) :
    (check_schema parsed).count (missingPKError t.name)
      = if tableHasPK t then 0 else 1 := by
  have hp : parsed ≠ [] := by
    intro h2
    rw [h2] at ht
    cases ht
  have hfact : getFact (collectPass [] parsed).1 t.name = some (tableHasPK t) := by
    rw [collectPass_fst_getFact, lastDecl_of_nodup hnd ht]
  have hcount := count_missingPK_checkPass (collectPass [] parsed).1 hnd ht
  rw [hfact] at hcount
  simp only [Option.getD_some] at hcount
  rw [check_schema_cases parsed hp]
  by_cases hr : (collectPass [] parsed).2
      ++ checkPass (collectPass [] parsed).1 parsed = []
  · rw [if_pos hr]
    have hcp : checkPass (collectPass [] parsed).1 parsed = [] :=
      (List.append_eq_nil.mp hr).2
    rw [hcp] at hcount
    by_cases hpk : tableHasPK t
    · have h2 : ¬(successDiag = missingPKError t.name) := successDiag_ne_missingPK t.name
      simp [hpk, List.count_singleton, h2]
    · rw [if_neg hpk] at hcount
      simp at hcount
  · rw [if_neg hr, List.count_append, count_missingPK_collect_snd, hcount]
    simp

/-- Claim C8, witness: a single table with no primary key at all receives the
Missing Primary Key error exactly once. -/
theorem c8_witness :
    (check_schema [Statement.createTable plainTable]).count (missingPKError "plain")
      = if tableHasPK plainTable then 0 else 1 :=
  c8_missing_pk [Statement.createTable plainTable] plainTable (by decide) (by decide)

end ModelAssist
